import Mathlib

/-!
Shallow embedding of the Jobs API (Express + Mongoose job-tracking service):
the auth controller (`register`, `login`), the JWT authentication middleware
(`auth`), and the jobs controller (`getAllJobs`, `getJob`, `createJob`,
`updateJob`, `deleteJob`), together with boundary models of the external
collaborators they call (the `jsonwebtoken` library, Mongoose store
operations, bcrypt, and the error-handler middleware).

Conventions: Mongo ObjectIds and timestamps are `Nat`; the persisted
collections are `List UserRec` / `List JobRec` threaded explicitly; a thrown
custom error is `Except.error` carrying the HTTP status code of the error
class and the message the controller passed to it; `bcrypt` hash/compare and
the email-format regex are taken as explicit function arguments since they
are external collaborators whose internals the claims never depend on.
-/

deriving instance DecidableEq for Except

namespace JobsAPI

/-- An error thrown by a controller: the status code of the custom error
class (`BadRequestError` 400, `UnauthenticatedError` 401, `NotFoundError`
404) and the human-readable message passed to its constructor. -/
structure HttpError where
  status : Nat
  msg : String
deriving Repr, DecidableEq

/-- JavaScript `String.prototype.startsWith(p)`: the receiver's characters
begin with the characters of `p`. -/
def jsStartsWith (s p : String) : Bool :=
  p.data.isPrefixOf s.data

/-- Helper for `jsSplit`: accumulates the current field (reversed) and cuts
at each occurrence of the separator character. -/
def splitFieldsAux (c : Char) : List Char → List Char → List (List Char)
  | acc, [] => [acc.reverse]
  | acc, x :: xs =>
      if x = c then acc.reverse :: splitFieldsAux c [] xs
      else splitFieldsAux c (x :: acc) xs

/-- JavaScript `String.prototype.split(c)` for a single-character separator:
every maximal run between separators becomes a field (empty fields are
kept, exactly as in JavaScript). -/
def jsSplit (s : String) (c : Char) : List String :=
  (splitFieldsAux c [] s.data).map (fun l => String.mk l)

/-- The claims a JWT of this system carries: `\x7b userId, name \x7d`, as
signed by `UserSchema.methods.createJWT`. -/
structure JwtPayload where
  userId : Nat
  name : String
deriving Repr, DecidableEq

/-- Boundary model of a token produced by the `jsonwebtoken` library
(external collaborator): a signed token determines its embedded claims, the
secret it was signed with, and its expiration instant. -/
structure SignedToken where
  payload : JwtPayload
  signedWith : String
  exp : Nat
deriving Repr, DecidableEq

/-- Boundary model of `jwt.sign(payload, secret, \x7b expiresIn \x7d)`:
the expiration instant is the signing instant plus the configured
lifetime. -/
def jwtSign (p : JwtPayload) (secret : String) (now lifetime : Nat) : SignedToken :=
  ⟨p, secret, now + lifetime⟩

/-- Boundary model of `jwt.verify(token, secret)`: succeeds and returns the
embedded claims unchanged iff the token was signed with the same secret and
has not expired; any mismatch fails (`none` stands for the library
throwing). -/
def jwtVerify (t : SignedToken) (secret : String) (now : Nat) : Option JwtPayload :=
  if t.signedWith = secret ∧ now < t.exp then some t.payload else none

/-- A persisted User document (models/User.js): `password` holds the bcrypt
hash written by the pre-save hook, never the plaintext. -/
structure UserRec where
  id : Nat
  name : String
  email : String
  password : String
deriving Repr, DecidableEq

/-- `UserSchema.methods.createJWT` (models/User.js): signs
`\x7b userId: this._id, name: this.name \x7d` with the configured secret and
lifetime. -/
def createJWT (u : UserRec) (secret : String) (now lifetime : Nat) : SignedToken :=
  jwtSign ⟨u.id, u.name⟩ secret now lifetime

/-- `UserSchema.methods.comparePassword` (models/User.js): delegates to
`bcrypt.compare(candidate, this.password)`; the bcrypt comparison itself is
an external collaborator passed in as `bcryptCompare`. -/
def comparePassword (bcryptCompare : String → String → Bool) (u : UserRec)
    (candidate : String) : Bool :=
  bcryptCompare candidate u.password

/-- The request body of `POST /auth/register`; a missing field is `none`. -/
structure RegisterBody where
  name : Option String
  email : Option String
  password : Option String
deriving Repr, DecidableEq

/-- Generic schema-validation failure of a Mongoose `create`/update
(`ValidationError`, surfaced as a 400 by the error handler). -/
def validationError : HttpError := ⟨400, "Validation failed"⟩

/-- Unique-index violation on `email` (surfaced as a 400). -/
def duplicateEmailError : HttpError := ⟨400, "Duplicate value entered for email field"⟩

/-- `User.create` (models/User.js schema): requires `name` (3–50 chars),
`email` (format per the schema regex, modelled by the explicit argument
`emailFormatOk`, and unique in the collection), `password` (at least 6
chars); the pre-save hook replaces the password with its bcrypt hash
(`bcryptHash`, cost 10, external collaborator). -/
def userCreate (emailFormatOk : String → Bool) (bcryptHash : String → String)
    (db : List UserRec) (freshId : Nat) (body : RegisterBody) :
    Except HttpError UserRec :=
  match body.name, body.email, body.password with
  | some n, some e, some p =>
      if ¬ (3 ≤ n.length ∧ n.length ≤ 50) then .error validationError
      else if ¬ emailFormatOk e then .error validationError
      else if db.any (fun u => u.email == e) then .error duplicateEmailError
      else if ¬ 6 ≤ p.length then .error validationError
      else .ok ⟨freshId, n, e, bcryptHash p⟩
  | _, _, _ => .error validationError

/-- A successful auth-controller response: the HTTP status, the user summary
(`register` includes the email, `login` omits it), and the issued token. -/
structure AuthSuccess where
  status : Nat
  userName : String
  userEmail : Option String
  token : SignedToken
deriving Repr, DecidableEq

/-- `register` (controllers/auth.js lines 22–29): `User.create(\x7b...req.body\x7d)`,
then `user.createJWT()`, then a 201 response with
`\x7b user: \x7b name, email \x7d, token \x7d`. Returns the created record,
the grown collection, and the response. -/
def register (emailFormatOk : String → Bool) (bcryptHash : String → String)
    (db : List UserRec) (freshId : Nat) (secret : String) (now lifetime : Nat)
    (body : RegisterBody) :
    Except HttpError (UserRec × List UserRec × AuthSuccess) :=
  match userCreate emailFormatOk bcryptHash db freshId body with
  | .error e => .error e
  | .ok user =>
      let token := createJWT user secret now lifetime
      .ok (user, db ++ [user], ⟨201, user.name, some user.email, token⟩)

/-- `login` (controllers/auth.js lines 40–61). JavaScript `!email` is true
both for an absent field (`none`) and for the empty string, so both fall
into the `BadRequestError` branch; then `User.findOne(\x7b email \x7d)` and
`user.comparePassword(password)`, each failure throwing
`UnauthenticatedError with the same message; success responds 200 with
`\x7b user: \x7b name \x7d, token \x7d` (no email). -/
def login (bcryptCompare : String → String → Bool) (db : List UserRec)
    (secret : String) (now lifetime : Nat) (email password : Option String) :
    Except HttpError AuthSuccess :=
  match email, password with
  | some e, some p =>
      if e = "" ∨ p = "" then .error ⟨400, "Please provide email and password"⟩
      else
        match db.find? (fun u => u.email == e) with
        | none => .error ⟨401, "Invalid Credentials"⟩
        | some user =>
            if comparePassword bcryptCompare user p then
              .ok ⟨200, user.name, none, createJWT user secret now lifetime⟩
            else .error ⟨401, "Invalid Credentials"⟩
  | _, _ => .error ⟨400, "Please provide email and password"⟩

/-- The identity the middleware attaches to the request
(`req.user = \x7b userId, name \x7d`). -/
structure ReqUser where
  userId : Nat
  name : String
deriving Repr, DecidableEq

/-- The single generic message every authentication failure carries
(middleware/authentication.js lines 30 and 41). -/
def authInvalid : HttpError := ⟨401, "Authentication invalid"⟩

/-- `authHeader.split(' ')[1]` (middleware/authentication.js line 33): the
second space-separated field, `none` when there is none (JavaScript
`undefined`). -/
def tokenOf (header : String) : Option String :=
  (jsSplit header ' ')[1]?

/-- The `try/catch` block of the middleware (lines 35–42): `jwt.verify` on
the extracted token (possibly `undefined`, which the library rejects), on
success attaching `\x7b userId, name \x7d` from the payload, on any thrown
error the generic `UnauthenticatedError`. The verification function over
wire tokens is abstract: `none` input models `jwt.verify(undefined, ...)`. -/
def verifyStage (verify : Option String → Option JwtPayload)
    (token : Option String) : Except HttpError ReqUser :=
  match verify token with
  | some payload => .ok ⟨payload.userId, payload.name⟩
  | none => .error authInvalid

/-- `auth` middleware (middleware/authentication.js lines 26–43): reject
when the header is absent or does not start with the literal `Bearer`
(JavaScript `!authHeader` is also true for an empty header, which equally
fails the `startsWith` test, so `none` covers absence faithfully); otherwise
verify the second space-separated field. -/
def auth (verify : Option String → Option JwtPayload)
    (authHeader : Option String) : Except HttpError ReqUser :=
  match authHeader with
  | none => .error authInvalid
  | some h =>
      if ¬ jsStartsWith h "Bearer" then .error authInvalid
      else verifyStage verify (tokenOf h)

/-- A persisted Job document (models/Job.js): `status` is constrained to the
schema enum, `createdBy` references the owning user, `createdAt` is the
timestamp written by `timestamps: true`. -/
structure JobRec where
  id : Nat
  company : String
  position : String
  status : String
  createdBy : Nat
  createdAt : Nat
deriving Repr, DecidableEq

/-- The `status` enum of the Job schema. -/
def jobStatusValues : List String := ["interview", "declined", "pending"]

/-- The comparison `.sort('createdAt')` orders by: creation instant
ascending. -/
def createdAtLe (a b : JobRec) : Bool :=
  decide (a.createdAt ≤ b.createdAt)

/-- `getAllJobs` (controllers/jobs.js lines 91–94):
`Job.find(\x7b createdBy: req.user.userId \x7d).sort('createdAt')`, answered
as `\x7b jobs, count: jobs.length \x7d`. -/
def getAllJobs (store : List JobRec) (userId : Nat) : List JobRec × Nat :=
  let jobs := (store.filter (fun j => j.createdBy == userId)).mergeSort createdAtLe
  (jobs, jobs.length)

/-- The message of the `NotFoundError` thrown by the job handlers. -/
def noJobMsg (jobId : Nat) : String := "No job with id " ++ toString jobId

/-- `getJob` (controllers/jobs.js lines 104–117):
`Job.findOne(\x7b _id: jobId, createdBy: userId \x7d)`; `NotFoundError` when
nothing matches. -/
def getJob (store : List JobRec) (userId jobId : Nat) : Except HttpError JobRec :=
  match store.find? (fun j => j.id == jobId && j.createdBy == userId) with
  | none => .error ⟨404, noJobMsg jobId⟩
  | some job => .ok job

/-- The request body of `POST /jobs`; a caller may also smuggle a
`createdBy` value, which the controller overwrites. -/
structure JobCreateBody where
  company : Option String
  position : Option String
  status : Option String
  createdBy : Option Nat
deriving Repr, DecidableEq

/-- `Job.create(body)` under the Job schema: `company` required (non-empty,
at most 50 chars), `position` required (non-empty, at most 100 chars),
`status` defaulting to `pending` and constrained to the enum, `createdBy`
required. -/
def jobCreate (store : List JobRec) (freshId now : Nat) (body : JobCreateBody) :
    Except HttpError (JobRec × List JobRec) :=
  match body.company, body.position, body.createdBy with
  | some c, some p, some owner =>
      let st := body.status.getD "pending"
      if c ≠ "" ∧ c.length ≤ 50 ∧ p ≠ "" ∧ p.length ≤ 100 ∧ st ∈ jobStatusValues then
        let job : JobRec := ⟨freshId, c, p, st, owner, now⟩
        .ok (job, store ++ [job])
      else .error validationError
  | _, _, _ => .error validationError

/-- `createJob` (controllers/jobs.js lines 125–129):
`req.body.createdBy = req.user.userId` (overwriting any caller-supplied
value) and then `Job.create(req.body)`. -/
def createJob (store : List JobRec) (userId freshId now : Nat)
    (body : JobCreateBody) : Except HttpError (JobRec × List JobRec) :=
  jobCreate store freshId now { body with createdBy := some userId }

/-- The request body of `PATCH /jobs/:id`: any subset of fields, possibly
including `createdBy`. -/
structure JobUpdateBody where
  company : Option String
  position : Option String
  status : Option String
  createdBy : Option Nat
deriving Repr, DecidableEq

/-- Mongoose update semantics for a plain update object (implicit `$set`):
exactly the paths present in the body are overwritten. -/
def applyJobUpdate (b : JobUpdateBody) (j : JobRec) : JobRec :=
  { j with
    company := b.company.getD j.company
    position := b.position.getD j.position
    status := b.status.getD j.status
    createdBy := b.createdBy.getD j.createdBy }

/-- `runValidators: true` on the update: each `$set` path present in the
body must satisfy its schema rule (required strings non-empty, length
bounds, `status` in the enum). -/
def updateValidatorsOk (b : JobUpdateBody) : Bool :=
  (match b.company with
   | none => true
   | some c => (c != "") && decide (c.length ≤ 50)) &&
  (match b.position with
   | none => true
   | some p => (p != "") && decide (p.length ≤ 100)) &&
  (match b.status with
   | none => true
   | some s => decide (s ∈ jobStatusValues))

/-- The filter object `\x7b _id: jobId, createdBy: userId \x7d` that
`updateJob` passes as the FIRST argument of `Job.findByIdAndUpdate`. -/
structure IdOwnerFilter where
  id : Nat
  createdBy : Nat
deriving Repr, DecidableEq

/-- Mongoose's ObjectId cast (lib/schema/objectid.js): an object that has an
`_id` property is cast to that property's value; every other key of the
object — here `createdBy` — is discarded. -/
def castObjectId (f : IdOwnerFilter) : Nat := f.id

/-- Replaces the first element satisfying `p` (Mongo's `findOneAndUpdate`
touches a single document). -/
def updateFirst (p : JobRec → Bool) (f : JobRec → JobRec) : List JobRec → List JobRec
  | [] => []
  | j :: rest => if p j then f j :: rest else j :: updateFirst p f rest

/-- Mongoose `Model.findByIdAndUpdate(id, update, opts)` delegates to
`findOneAndUpdate(\x7b _id: id \x7d, update, opts)`: the first argument is
cast to a single ObjectId (see `castObjectId`), so the query filters by
`_id` alone. With `new: true` the post-update document is returned. -/
def findByIdAndUpdate (store : List JobRec) (f : IdOwnerFilter)
    (b : JobUpdateBody) : Option JobRec × List JobRec :=
  let key := castObjectId f
  match store.find? (fun j => j.id == key) with
  | none => (none, store)
  | some j => (some (applyJobUpdate b j),
               updateFirst (fun x => x.id == key) (applyJobUpdate b) store)

/-- The `BadRequestError` thrown by `updateJob` when `company` or `position`
is present but empty (controllers/jobs.js line 146). -/
def emptyFieldsError : HttpError := ⟨400, "Company or Position fields cannot be empty"⟩

/-- `updateJob` (controllers/jobs.js lines 142–160): first the strict-equality
check `company === '' || position === ''` (an absent field is `undefined`,
not `''`, so it passes), then
`Job.findByIdAndUpdate(\x7b _id, createdBy \x7d, req.body, \x7b new: true,
runValidators: true \x7d)`, throwing `NotFoundError` when nothing matched. -/
def updateJob (store : List JobRec) (userId jobId : Nat) (body : JobUpdateBody) :
    Except HttpError (JobRec × List JobRec) :=
  if body.company = some "" ∨ body.position = some "" then
    .error emptyFieldsError
  else if ¬ updateValidatorsOk body then .error validationError
  else
    match findByIdAndUpdate store ⟨jobId, userId⟩ body with
    | (none, _) => .error ⟨404, noJobMsg jobId⟩
    | (some job, newStore) => .ok (job, newStore)

/-- `deleteJob` (controllers/jobs.js lines 170–183):
`Job.findOneAndDelete(\x7b _id: jobId, createdBy: userId \x7d)` — here both
filter keys apply — removing the matched document; `NotFoundError` when
nothing matched, otherwise a 200 with an empty body. -/
def deleteJob (store : List JobRec) (userId jobId : Nat) :
    Except HttpError (JobRec × List JobRec) :=
  match store.find? (fun j => j.id == jobId && j.createdBy == userId) with
  | none => .error ⟨404, noJobMsg jobId⟩
  | some job => .ok (job, store.eraseP (fun j => j.id == jobId && j.createdBy == userId))

/-- Modelled from the spec: the error-handler middleware
(middleware/error-handler.js, not under src/) maps every thrown error to its
status code and the JSON body `\x7b msg: <message> \x7d`. -/
def errorResponse (e : HttpError) : Nat × String :=
  (e.status, "\x7b\"msg\":\"" ++ e.msg ++ "\"\x7d")

/-- The Mongo `_id` unique-index invariant of a collection of jobs. -/
def JobIdsNodup (store : List JobRec) : Prop :=
  (store.map JobRec.id).Nodup

/-- C1: tenant isolation. `getJob` and `deleteJob` filter by both `_id` and
`createdBy`, so user 2 querying user 1's job gets `NotFound`; but
`updateJob` reaches the store through `findByIdAndUpdate`, whose ObjectId
cast discards the `createdBy` key of the filter object, so user 2's update
of user 1's job succeeds and returns the job data — the code contradicts
its own doc comment ("Updates an existing job if it belongs to the
authenticated user"). -/
theorem updateJob_cross_tenant_code_bug :
    getJob [⟨1, "Acme", "Engineer", "pending", 1, 0⟩] 2 1
      = .error ⟨404, "No job with id 1"⟩
    ∧ deleteJob [⟨1, "Acme", "Engineer", "pending", 1, 0⟩] 2 1
      = .error ⟨404, "No job with id 1"⟩
    ∧ updateJob [⟨1, "Acme", "Engineer", "pending", 1, 0⟩] 2 1
        ⟨some "Hacked", none, none, none⟩
      = .ok (⟨1, "Hacked", "Engineer", "pending", 1, 0⟩,
             [⟨1, "Hacked", "Engineer", "pending", 1, 0⟩]) := by
  exact ⟨by decide, by decide, by decide⟩

/-- C2 counterexample: an `Update` whose input contains a `createdBy` field
changes the job's `createdBy` — the controller forwards `req.body` to the
store unfiltered, so `createdBy` is not immutable after creation as the
claim states. Here the owner (user 1) reassigns the job to user 2. -/
theorem updateJob_changes_createdBy_counterexample :
    updateJob [⟨1, "Acme", "Engineer", "pending", 1, 0⟩] 1 1
        ⟨none, none, none, some 2⟩
      = .ok (⟨1, "Acme", "Engineer", "pending", 2, 0⟩,
             [⟨1, "Acme", "Engineer", "pending", 2, 0⟩]) := by
  decide

/-- C6: `updateJob` fails with the `BadRequest` "empty fields" error exactly
when `company` or `position` is present and equal to the empty string,
whatever else the body holds (the check precedes every other step); bodies
that omit both fields never produce that error. -/
theorem updateJob_rejects_present_empty_company_or_position
    (store : List JobRec) (userId jobId : Nat) (body : JobUpdateBody) :
    (body.company = some "" ∨ body.position = some "" →
      updateJob store userId jobId body = .error emptyFieldsError)
    ∧ (body.company = none → body.position = none →
      updateJob store userId jobId body ≠ .error emptyFieldsError) := by
  constructor
  · intro h
    simp [updateJob, h]
  · intro hc hp
    unfold updateJob
    rw [if_neg (by simp [hc, hp])]
    by_cases hv : updateValidatorsOk body
    · rw [if_neg (by simp [hv])]
      cases hfind : findByIdAndUpdate store ⟨jobId, userId⟩ body with
      | mk found newStore =>
          cases found <;> simp [emptyFieldsError, noJobMsg]
    · rw [if_pos (by simp [hv])]
      simp [validationError, emptyFieldsError]

/-- C6 witness: a concrete body with `company` present and empty is
rejected with the 400 "empty fields" error. -/
theorem updateJob_rejects_present_empty_witness :
    updateJob [] 1 1 ⟨some "", some "Dev", some "pending", none⟩
      = .error emptyFieldsError :=
  (updateJob_rejects_present_empty_company_or_position [] 1 1
    ⟨some "", some "Dev", some "pending", none⟩).1 (Or.inl rfl)

/-- C9: when `email` or `password` is present but empty, `login` answers
exactly as for an absent field — `BadRequest` 400, never 401 — and the
result does not depend on the credential store or on the bcrypt
comparison, i.e. no lookup or hash comparison influences it. -/
theorem login_empty_fields_badRequest_no_lookup
    (bcryptCompare : String → String → Bool) (db : List UserRec)
    (secret : String) (now lifetime : Nat) (email password : Option String)
    (h : email = some "" ∨ password = some "") :
    login bcryptCompare db secret now lifetime email password
      = .error ⟨400, "Please provide email and password"⟩
    ∧ ∀ (db' : List UserRec) (bc' : String → String → Bool),
        login bc' db' secret now lifetime email password
          = login bcryptCompare db secret now lifetime email password := by
  cases email with
  | none =>
      cases password with
      | none => exact ⟨rfl, fun _ _ => rfl⟩
      | some p => exact ⟨rfl, fun _ _ => rfl⟩
  | some e =>
      cases password with
      | none => exact ⟨rfl, fun _ _ => rfl⟩
      | some p =>
          have he : e = "" ∨ p = "" := by
            rcases h with h | h
            · exact Or.inl (Option.some.inj h)
            · exact Or.inr (Option.some.inj h)
          constructor
          · simp [login, he]
          · intro db' bc'
            simp [login, he]

/-- C9 witness: a present-but-empty email gives the 400 missing-fields
error on a concrete store. -/
theorem login_empty_fields_witness :
    login (fun _ _ => true) [⟨1, "Bob", "bob@x.com", "HASH"⟩] "s" 0 10
        (some "") (some "pw")
      = .error ⟨400, "Please provide email and password"⟩ :=
  (login_empty_fields_badRequest_no_lookup (fun _ _ => true)
    [⟨1, "Bob", "bob@x.com", "HASH"⟩] "s" 0 10 (some "") (some "pw")
    (Or.inl rfl)).1

/-- C10: the header-shape check of the middleware only requires the header
to start with the literal `Bearer` (no space required); for any header of
that shape the token handed to verification is the second space-separated
field; `BearerX` and a bare `Bearer` pass the shape check, yield no second
field, and are rejected only because verifying a missing token fails,
still with the generic `Unauthenticated` error. -/
theorem auth_bearer_prefix_and_second_field
    (verify : Option String → Option JwtPayload) (hnone : verify none = none) :
    (∀ h, jsStartsWith h "Bearer" = true →
        auth verify (some h) = verifyStage verify (tokenOf h))
    ∧ jsStartsWith "BearerX" "Bearer" = true
    ∧ tokenOf "BearerX" = none
    ∧ auth verify (some "BearerX") = .error authInvalid
    ∧ jsStartsWith "Bearer" "Bearer" = true
    ∧ tokenOf "Bearer" = none
    ∧ auth verify (some "Bearer") = .error authInvalid := by
  have hstage : ∀ s : String, tokenOf s = none →
      verifyStage verify (tokenOf s) = .error authInvalid := by
    intro s hs
    simp [verifyStage, hs, hnone]
  refine ⟨?_, by decide, by decide, ?_, by decide, by decide, ?_⟩
  · intro h hb
    simp [auth, hb]
  · rw [show auth verify (some "BearerX") = verifyStage verify (tokenOf "BearerX") by
      simp [auth, (by decide : jsStartsWith "BearerX" "Bearer" = true)]]
    exact hstage _ (by decide)
  · rw [show auth verify (some "Bearer") = verifyStage verify (tokenOf "Bearer") by
      simp [auth, (by decide : jsStartsWith "Bearer" "Bearer" = true)]]
    exact hstage _ (by decide)

/-- C10 witness: with a verifier that rejects everything (in particular a
missing token), the header `BearerX` is rejected with the generic error. -/
theorem auth_bearer_prefix_witness :
    auth (fun _ => none) (some "BearerX") = .error authInvalid :=
  (auth_bearer_prefix_and_second_field (fun _ => none) rfl).2.2.2.1

/-- C3: every failure of the authentication middleware — absent header,
header not of the Bearer form, or failed verification for any reason —
carries the one generic `Unauthenticated` error (any error it produces
equals `authInvalid`), and on success it attaches exactly
`\x7b userId, name \x7d` from the token payload. -/
theorem auth_failures_generic_and_success_attaches_payload
    (verify : Option String → Option JwtPayload) (authHeader : Option String) :
    (∀ e, auth verify authHeader = .error e → e = authInvalid)
    ∧ (authHeader = none → auth verify authHeader = .error authInvalid)
    ∧ (∀ h, authHeader = some h → jsStartsWith h "Bearer" = false →
        auth verify authHeader = .error authInvalid)
    ∧ (∀ h, authHeader = some h → verify (tokenOf h) = none →
        auth verify authHeader = .error authInvalid)
    ∧ (∀ h payload, authHeader = some h → jsStartsWith h "Bearer" = true →
        verify (tokenOf h) = some payload →
        auth verify authHeader = .ok ⟨payload.userId, payload.name⟩) := by
  refine ⟨?_, ?_, ?_, ?_, ?_⟩
  · intro e he
    cases authHeader with
    | none =>
        simp [auth] at he
        exact he.symm
    | some h =>
        by_cases hb : jsStartsWith h "Bearer"
        · cases hv : verify (tokenOf h) with
          | none =>
              simp [auth, hb, verifyStage, hv] at he
              exact he.symm
          | some p =>
              simp [auth, hb, verifyStage, hv] at he
        · simp [auth, hb] at he
          exact he.symm
  · intro hn
    subst hn
    rfl
  · intro h hh hb
    subst hh
    simp [auth, hb]
  · intro h hh hv
    subst hh
    by_cases hb : jsStartsWith h "Bearer"
    · simp [auth, hb, verifyStage, hv]
    · simp [auth, hb]
  · intro h payload hh hb hv
    subst hh
    simp [auth, hb, verifyStage, hv]

/-- C3 witness: a header of the wrong form (`Basic abc`) is rejected with
the generic error. -/
theorem auth_failures_generic_witness :
    auth (fun _ => none) (some "Basic abc") = .error authInvalid :=
  (auth_failures_generic_and_success_attaches_payload (fun _ => none)
    (some "Basic abc")).2.2.1 "Basic abc" rfl (by decide)

/-- C4: round-trip of issuance and verification. Whenever `register`
succeeds, the token of its response, verified with the same secret at any
instant before expiry, yields exactly the `userId` and `name` of the
credential record `register` created. -/
theorem register_token_roundtrip
    (emailFormatOk : String → Bool) (bcryptHash : String → String)
    (db : List UserRec) (freshId : Nat) (secret : String) (now lifetime : Nat)
    (body : RegisterBody) (user : UserRec) (db' : List UserRec)
    (resp : AuthSuccess)
    (hreg : register emailFormatOk bcryptHash db freshId secret now lifetime body
      = .ok (user, db', resp))
    (tnow : Nat) (hfresh : tnow < now + lifetime) :
    jwtVerify resp.token secret tnow = some ⟨user.id, user.name⟩ := by
  unfold register at hreg
  cases hu : userCreate emailFormatOk bcryptHash db freshId body with
  | error e =>
      rw [hu] at hreg
      exact absurd hreg (by simp)
  | ok u =>
      rw [hu] at hreg
      simp only [Except.ok.injEq, Prod.mk.injEq] at hreg
      obtain ⟨h1, _, h3⟩ := hreg
      subst h1
      subst h3
      simp [createJWT, jwtSign, jwtVerify, hfresh]

/-- C4 witness: registering Ann against an empty store and verifying the
returned token before expiry yields her record's id and name. -/
theorem register_token_roundtrip_witness :
    jwtVerify (SignedToken.mk ⟨1, "Ann"⟩ "s" 10) "s" 5 = some ⟨1, "Ann"⟩ :=
  register_token_roundtrip (fun _ => true) (fun s => s) [] 1 "s" 0 10
    ⟨some "Ann", some "ann@x.com", some "secret1"⟩
    ⟨1, "Ann", "ann@x.com", "secret1"⟩ [⟨1, "Ann", "ann@x.com", "secret1"⟩]
    ⟨201, "Ann", some "ann@x.com", ⟨⟨1, "Ann"⟩, "s", 10⟩⟩ (by decide) 5 (by decide)

/-- C5: two-run indistinguishability of login failures. A login whose email
matches no credential record and a login with an existing email but a
failing password comparison produce the very same error value — status 401
and message `Invalid Credentials` — hence byte-identical response bodies
under the error translator. -/
theorem login_failures_indistinguishable
    (bcryptCompare : String → String → Bool) (db : List UserRec)
    (secret : String) (now lifetime : Nat)
    (e1 p1 e2 p2 : String) (u : UserRec)
    (he1 : e1 ≠ "") (hp1 : p1 ≠ "")
    (hfind1 : db.find? (fun x => x.email == e1) = none)
    (he2 : e2 ≠ "") (hp2 : p2 ≠ "")
    (hfind2 : db.find? (fun x => x.email == e2) = some u)
    (hcmp : bcryptCompare p2 u.password = false) :
    login bcryptCompare db secret now lifetime (some e1) (some p1)
      = .error ⟨401, "Invalid Credentials"⟩
    ∧ login bcryptCompare db secret now lifetime (some e2) (some p2)
      = .error ⟨401, "Invalid Credentials"⟩
    ∧ errorResponse ⟨401, "Invalid Credentials"⟩
      = (401, "\x7b\"msg\":\"Invalid Credentials\"\x7d") := by
  refine ⟨?_, ?_, rfl⟩
  · simp [login, he1, hp1, hfind1]
  · simp [login, he2, hp2, hfind2, comparePassword, hcmp]

/-- C5 witness: on a concrete store holding only Bob, a ghost email and a
wrong password for Bob produce the identical 401 error. -/
theorem login_failures_indistinguishable_witness :
    login (fun _ _ => false) [⟨1, "Bob", "bob@x.com", "HASH"⟩] "s" 0 10
        (some "ghost@x.com") (some "pw")
      = .error ⟨401, "Invalid Credentials"⟩
    ∧ login (fun _ _ => false) [⟨1, "Bob", "bob@x.com", "HASH"⟩] "s" 0 10
        (some "bob@x.com") (some "wrong")
      = .error ⟨401, "Invalid Credentials"⟩
    ∧ errorResponse ⟨401, "Invalid Credentials"⟩
      = (401, "\x7b\"msg\":\"Invalid Credentials\"\x7d") :=
  login_failures_indistinguishable (fun _ _ => false)
    [⟨1, "Bob", "bob@x.com", "HASH"⟩] "s" 0 10
    "ghost@x.com" "pw" "bob@x.com" "wrong" ⟨1, "Bob", "bob@x.com", "HASH"⟩
    (by decide) (by decide) (by decide) (by decide) (by decide) (by decide)
    (by decide)

/-- Helper: in a collection with pairwise-distinct `_id`s, a filter that
forces a fixed `_id` finds a given matching element (the unique-index
invariant makes "first match" deterministic). -/
theorem find?_eq_some_of_unique_id (p : JobRec → Bool) (key : Nat)
    (hp : ∀ y, p y = true → y.id = key) :
    ∀ (store : List JobRec), (store.map JobRec.id).Nodup →
      ∀ job ∈ store, p job = true → store.find? p = some job := by
  intro store
  induction store with
  | nil =>
      intro _ job hj
      cases hj
  | cons x rest ih =>
      intro hnodup job hmem hpj
      rw [List.map_cons, List.nodup_cons] at hnodup
      rcases List.mem_cons.mp hmem with rfl | hmem
      · exact List.find?_cons_of_pos _ hpj
      · by_cases hx : p x
        · exfalso
          have hxk : x.id = key := hp x hx
          have hjk : job.id = key := hp job hpj
          exact hnodup.1 (hxk ▸ hjk ▸ List.mem_map_of_mem JobRec.id hmem)
        · rw [List.find?_cons_of_neg _ hx]
          exact ih hnodup.2 job hmem hpj

/-- Helper: in a collection with pairwise-distinct `_id`s, once the (at
most one) document matching an `_id`-fixing filter has been erased, the
same filter finds nothing. -/
theorem find?_eraseP_eq_none (p : JobRec → Bool) (key : Nat)
    (hp : ∀ y, p y = true → y.id = key) :
    ∀ (store : List JobRec), (store.map JobRec.id).Nodup →
      (store.eraseP p).find? p = none := by
  intro store
  induction store with
  | nil =>
      intro _
      rfl
  | cons x rest ih =>
      intro hnodup
      rw [List.map_cons, List.nodup_cons] at hnodup
      by_cases hx : p x
      · rw [List.eraseP_cons_of_pos hx, List.find?_eq_none]
        intro y hy hpy
        exact hnodup.1 ((hp x hx) ▸ (hp y hpy) ▸ List.mem_map_of_mem JobRec.id hy)
      · rw [List.eraseP_cons_of_neg hx, List.find?_cons_of_neg _ hx]
        exact ih hnodup.2

/-- C7: Delete is idempotent in the error sense. On a store whose `_id`s
are pairwise distinct (the Mongo unique-index invariant), the first Delete
of a job owned by the caller succeeds, removing exactly that document, and
a second Delete of the same id by the same caller returns `NotFound`. -/
theorem deleteJob_twice_notFound
    (store : List JobRec) (userId jobId : Nat) (job : JobRec)
    (hnodup : (store.map JobRec.id).Nodup) (hmem : job ∈ store)
    (hid : job.id = jobId) (hown : job.createdBy = userId) :
    deleteJob store userId jobId
      = .ok (job, store.eraseP (fun j => j.id == jobId && j.createdBy == userId))
    ∧ deleteJob (store.eraseP (fun j => j.id == jobId && j.createdBy == userId))
        userId jobId
      = .error ⟨404, noJobMsg jobId⟩ := by
  have hp : ∀ y : JobRec, (y.id == jobId && y.createdBy == userId) = true →
      y.id = jobId := by
    intro y hy
    simp only [Bool.and_eq_true, beq_iff_eq] at hy
    exact hy.1
  have h1 := find?_eq_some_of_unique_id _ jobId hp store hnodup job hmem
    (by simp [hid, hown])
  have h2 := find?_eraseP_eq_none _ jobId hp store hnodup
  constructor
  · simp [deleteJob, h1]
  · simp [deleteJob, h2]

/-- C7 witness: deleting job 1 of user 5 from a one-job store succeeds;
deleting it again from the resulting store is `NotFound`. -/
theorem deleteJob_twice_notFound_witness :
    deleteJob [⟨1, "Acme", "Dev", "pending", 5, 0⟩] 5 1
      = .ok (⟨1, "Acme", "Dev", "pending", 5, 0⟩,
             [⟨1, "Acme", "Dev", "pending", 5, 0⟩].eraseP
               (fun j => j.id == 1 && j.createdBy == 5))
    ∧ deleteJob ([⟨1, "Acme", "Dev", "pending", 5, 0⟩].eraseP
          (fun j => j.id == 1 && j.createdBy == 5)) 5 1
      = .error ⟨404, noJobMsg 1⟩ :=
  deleteJob_twice_notFound [⟨1, "Acme", "Dev", "pending", 5, 0⟩] 5 1
    ⟨1, "Acme", "Dev", "pending", 5, 0⟩ (by decide) (by decide) rfl rfl

/-- Helper: an update whose body has no `createdBy` path leaves the
document's `createdBy` unchanged. -/
theorem applyJobUpdate_createdBy (ub : JobUpdateBody) (hub : ub.createdBy = none)
    (j : JobRec) : (applyJobUpdate ub j).createdBy = j.createdBy := by
  simp [applyJobUpdate, hub]

/-- Helper: replacing one document by its update does not change the
collection's `createdBy` column when the update body has no `createdBy`
path. -/
theorem updateFirst_map_createdBy (ub : JobUpdateBody) (hub : ub.createdBy = none)
    (p : JobRec → Bool) :
    ∀ l : List JobRec,
      (updateFirst p (applyJobUpdate ub) l).map JobRec.createdBy
        = l.map JobRec.createdBy := by
  intro l
  induction l with
  | nil => rfl
  | cons x rest ih =>
      by_cases hx : p x
      · simp [updateFirst, hx, applyJobUpdate_createdBy ub hub]
      · simp [updateFirst, hx, ih]

/-- Helper: a successful `jobCreate` stores exactly the body's `createdBy`
and appends the new document. -/
theorem jobCreate_ok_createdBy (store : List JobRec) (freshId now : Nat)
    (b : JobCreateBody) (job : JobRec) (newStore : List JobRec)
    (hok : jobCreate store freshId now b = .ok (job, newStore)) :
    b.createdBy = some job.createdBy ∧ newStore = store ++ [job] := by
  unfold jobCreate at hok
  cases hc : b.company with
  | none => rw [hc] at hok; exact absurd hok (by simp)
  | some c =>
      cases hp : b.position with
      | none => rw [hc, hp] at hok; exact absurd hok (by simp)
      | some p =>
          cases hb : b.createdBy with
          | none => rw [hc, hp, hb] at hok; exact absurd hok (by simp)
          | some owner =>
              rw [hc, hp, hb] at hok
              simp only at hok
              split at hok
              · simp only [Except.ok.injEq, Prod.mk.injEq] at hok
                obtain ⟨h1, h2⟩ := hok
                subst h1
                exact ⟨rfl, h2.symm⟩
              · exact absurd hok (by simp)

/-- Helper: a successful `findByIdAndUpdate` found a stored document with
the filter's `_id` (ownership is not consulted), returned its update, and
replaced it in place. -/
theorem findByIdAndUpdate_ok (store : List JobRec) (f : IdOwnerFilter)
    (b : JobUpdateBody) (job : JobRec) (newStore : List JobRec)
    (h : findByIdAndUpdate store f b = (some job, newStore)) :
    ∃ j0 ∈ store, j0.id = f.id ∧ job = applyJobUpdate b j0
      ∧ newStore = updateFirst (fun x => x.id == f.id) (applyJobUpdate b) store := by
  simp only [findByIdAndUpdate, castObjectId] at h
  cases hf : store.find? (fun j => j.id == f.id) with
  | none => rw [hf] at h; exact absurd h (by simp)
  | some j0 =>
      rw [hf] at h
      simp only [Prod.mk.injEq, Option.some.injEq] at h
      obtain ⟨h1, h2⟩ := h
      exact ⟨j0, List.mem_of_find?_eq_some hf,
        by simpa using List.find?_some hf, h1.symm, h2.symm⟩

/-- C2 (amended): `createJob` sets the stored `createdBy` to the
authenticated caller's identifier — overwriting any caller-supplied value —
and appends the record; `updateJob` leaves every job's `createdBy`
unchanged whenever its input does not contain a `createdBy` field (the
counterexample shows an input containing one overwrites it). -/
theorem createdBy_server_set_and_preserved_without_field
    (store : List JobRec) (userId freshId now jobId : Nat)
    (cb : JobCreateBody) (ub : JobUpdateBody) :
    (∀ job newStore, createJob store userId freshId now cb = .ok (job, newStore) →
        job.createdBy = userId ∧ newStore = store ++ [job])
    ∧ (ub.createdBy = none →
        ∀ job newStore, updateJob store userId jobId ub = .ok (job, newStore) →
          newStore.map JobRec.createdBy = store.map JobRec.createdBy
          ∧ ∃ j0 ∈ store, j0.id = jobId ∧ job.createdBy = j0.createdBy) := by
  constructor
  · intro job newStore hok
    have hcb := jobCreate_ok_createdBy store freshId now
      { cb with createdBy := some userId } job newStore hok
    refine ⟨?_, hcb.2⟩
    have : some userId = some job.createdBy := hcb.1
    exact (Option.some.inj this).symm
  · intro hub job newStore hok
    unfold updateJob at hok
    split at hok
    · exact absurd hok (by simp)
    · split at hok
      · exact absurd hok (by simp)
      · cases hf : findByIdAndUpdate store ⟨jobId, userId⟩ ub with
        | mk found ns =>
            rw [hf] at hok
            cases found with
            | none => exact absurd hok (by simp)
            | some j' =>
                simp only [Except.ok.injEq, Prod.mk.injEq] at hok
                obtain ⟨hj, hn⟩ := hok
                obtain ⟨j0, hj0mem, hj0id, hjob, hns⟩ :=
                  findByIdAndUpdate_ok store ⟨jobId, userId⟩ ub j' ns hf
                refine ⟨?_, j0, hj0mem, hj0id, ?_⟩
                · rw [← hn, hns]
                  exact updateFirst_map_createdBy ub hub _ store
                · rw [← hj, hjob]
                  exact applyJobUpdate_createdBy ub hub j0

/-- C2 witness: creating a job as user 7 (despite the body smuggling
`createdBy: 99`) stores `createdBy = 7`; updating its company afterwards
leaves the `createdBy` column of the store untouched. -/
theorem createdBy_server_set_witness :
    (⟨1, "Acme", "Dev", "pending", 7, 0⟩ : JobRec).createdBy = 7
    ∧ [(⟨1, "NewCo", "Dev", "pending", 7, 0⟩ : JobRec)].map JobRec.createdBy
        = [(⟨1, "Acme", "Dev", "pending", 7, 0⟩ : JobRec)].map JobRec.createdBy :=
  ⟨((createdBy_server_set_and_preserved_without_field [] 7 1 0 0
      ⟨some "Acme", some "Dev", none, some 99⟩ ⟨none, none, none, none⟩).1
      ⟨1, "Acme", "Dev", "pending", 7, 0⟩ [⟨1, "Acme", "Dev", "pending", 7, 0⟩]
      (by decide)).1,
   ((createdBy_server_set_and_preserved_without_field
      [⟨1, "Acme", "Dev", "pending", 7, 0⟩] 7 1 0 1
      ⟨none, none, none, none⟩ ⟨some "NewCo", none, none, none⟩).2 rfl
      ⟨1, "NewCo", "Dev", "pending", 7, 0⟩ [⟨1, "NewCo", "Dev", "pending", 7, 0⟩]
      (by decide)).1⟩

/-- C8: `getAllJobs` returns exactly the caller's jobs — a permutation of
the store filtered to `createdBy = userId`, hence containing a job iff the
store holds it with that owner — sorted by creation instant ascending,
with `count` equal to the returned list's length. -/
theorem getAllJobs_owned_sorted_count (store : List JobRec) (userId : Nat) :
    List.Perm (getAllJobs store userId).1
      (store.filter (fun j => j.createdBy == userId))
    ∧ List.Sorted (fun a b : JobRec => a.createdAt ≤ b.createdAt)
        (getAllJobs store userId).1
    ∧ (∀ j ∈ (getAllJobs store userId).1, j.createdBy = userId)
    ∧ (∀ j ∈ store, j.createdBy = userId → j ∈ (getAllJobs store userId).1)
    ∧ (getAllJobs store userId).2 = (getAllJobs store userId).1.length := by
  have hperm : List.Perm
      ((store.filter (fun j => j.createdBy == userId)).mergeSort createdAtLe)
      (store.filter (fun j => j.createdBy == userId)) :=
    List.mergeSort_perm _ _
  have htrans : ∀ a b c : JobRec, createdAtLe a b = true →
      createdAtLe b c = true → createdAtLe a c = true := by
    intro a b c hab hbc
    simp only [createdAtLe, decide_eq_true_eq] at hab hbc ⊢
    exact le_trans hab hbc
  have htotal : ∀ a b : JobRec, (createdAtLe a b || createdAtLe b a) = true := by
    intro a b
    simp only [createdAtLe, Bool.or_eq_true, decide_eq_true_eq]
    exact Nat.le_total _ _
  have hsorted := List.sorted_mergeSort htrans htotal
    (store.filter (fun j => j.createdBy == userId))
  refine ⟨hperm, ?_, ?_, ?_, rfl⟩
  · show List.Pairwise (fun a b : JobRec => a.createdAt ≤ b.createdAt)
      ((getAllJobs store userId).1)
    exact hsorted.imp (fun hab => by simpa [createdAtLe] using hab)
  · intro j hj
    have hjf : j ∈ store.filter (fun j => j.createdBy == userId) :=
      hperm.mem_iff.mp hj
    have := (List.mem_filter.mp hjf).2
    simpa using this
  · intro j hj hcb
    exact hperm.mem_iff.mpr (List.mem_filter.mpr ⟨hj, by simp [hcb]⟩)

/-- C8 witness: on a three-job store, the caller's two jobs come back
(job 2, created earlier, is among them) and the count ties to the length. -/
theorem getAllJobs_owned_sorted_count_witness :
    (getAllJobs [⟨1, "A", "P", "pending", 7, 5⟩, ⟨2, "B", "Q", "pending", 7, 3⟩,
        ⟨3, "C", "R", "pending", 8, 1⟩] 7).2
      = (getAllJobs [⟨1, "A", "P", "pending", 7, 5⟩, ⟨2, "B", "Q", "pending", 7, 3⟩,
        ⟨3, "C", "R", "pending", 8, 1⟩] 7).1.length
    ∧ (⟨2, "B", "Q", "pending", 7, 3⟩ : JobRec)
        ∈ (getAllJobs [⟨1, "A", "P", "pending", 7, 5⟩, ⟨2, "B", "Q", "pending", 7, 3⟩,
        ⟨3, "C", "R", "pending", 8, 1⟩] 7).1 :=
  ⟨(getAllJobs_owned_sorted_count [⟨1, "A", "P", "pending", 7, 5⟩,
      ⟨2, "B", "Q", "pending", 7, 3⟩, ⟨3, "C", "R", "pending", 8, 1⟩] 7).2.2.2.2,
   (getAllJobs_owned_sorted_count [⟨1, "A", "P", "pending", 7, 5⟩,
      ⟨2, "B", "Q", "pending", 7, 3⟩, ⟨3, "C", "R", "pending", 8, 1⟩] 7).2.2.2.1
     ⟨2, "B", "Q", "pending", 7, 3⟩ (by decide) rfl⟩

end JobsAPI
